import Mathlib

/-!
Verification of the CPP_PA3 expression-AST program (src/AST.h, src/AST.cpp,
src/main.cpp): tokenizer, shunting-yard tree builder, checked tree evaluator,
and the preorder codec (serializer `write_pre` and streaming evaluator
`eval_pre`).

Modelling conventions:
- `int64_t` is modelled as `Int`; where the C++ type itself bounds a value we
  carry an explicit well-formedness predicate (`Node.wf_int64`).  Where the
  C++ code performs unchecked signed arithmetic (`eval_pre` in main.cpp) we
  model the result as two's-complement wraparound (`wrap64`).
- C++ exceptions (`ASTException`) become `Except ASTErr`; each `ASTErr`
  constructor corresponds to one exception message of the source, recorded in
  its doc string.
- The repository snapshot contains several redundant revisions of the same
  program.  `src/AST.cpp` is taken as the authoritative revision: it uses
  `TokenType::Div` / `NodeType::Div` and checked arithmetic, while the older
  header `src/AST.h` lacks `Div` and carries an unchecked inline `get_value`.
  The enums below therefore include `Div`, as AST.cpp requires.
- Loops and stream recursion that are not structurally recursive are given a
  fuel parameter; the fuel used (input length + 1) is provably sufficient
  because every iteration consumes at least one character / token.
-/

namespace PA3

/-! ### Character classification (C locale, as used via `<cctype>`) -/

/-- `std::isdigit` on an unsigned char in the C locale. -/
def isDigitChar (c : Char) : Bool := 48 ≤ c.toNat && c.toNat ≤ 57

/-- `std::islower` on an unsigned char in the C locale. -/
def isLowerChar (c : Char) : Bool := 97 ≤ c.toNat && c.toNat ≤ 122

/-- `std::isspace` on an unsigned char in the C locale:
space, \t, \n, vertical tab, form feed, \r. -/
def isSpaceChar (c : Char) : Bool := c.toNat = 32 || (9 ≤ c.toNat && c.toNat ≤ 13)

/-! ### Data model: tokens, node kinds, errors (src/AST.h, adjusted to the
authoritative AST.cpp revision which includes `Div`) -/

/-- `enum class TokenType` (with `Div`, as used by src/AST.cpp).  `var` is
`TokenType::Variable` and `endTok` is `TokenType::End` (renamed from the C++
because `variable` and `end` are Lean keywords). -/
inductive TokenType where
  | number | var | plus | minus | mult | div | lparen | rparen | endTok
deriving DecidableEq, Repr

/-- `struct Token { TokenType type; int64_t value; std::string variable_name; }`. -/
structure Token where
  type : TokenType
  value : Int
  variable_name : String
deriving DecidableEq, Repr

/-- `enum class NodeType` (with `Div`, as used by src/AST.cpp); `var` is
`NodeType::Variable`. -/
inductive NodeType where
  | number | var | add | sub | mult | div
deriving DecidableEq, Repr

/-- One constructor per distinct `ASTException` message thrown by the source
(plus `fuelExhausted`, an artifact of the fuel-based model that is unreachable
for the fuel actually supplied). -/
inductive ASTErr where
  /-- "missing digits in number" -/
  | missingDigits
  /-- "integer literal overflow" -/
  | integerLiteralOverflow
  /-- "invalid numeric literal" -/
  | invalidNumericLiteral
  /-- "overflow in addition" -/
  | overflowAdd
  /-- "overflow in subtraction" -/
  | overflowSub
  /-- "overflow in multiplication" -/
  | overflowMul
  /-- "overflow in division" -/
  | overflowDiv
  /-- "division by zero" -/
  | divisionByZero
  /-- "unexpected operator token" -/
  | unexpectedOperatorToken
  /-- "missing operator" -/
  | missingOperator
  /-- "missing operand" -/
  | missingOperand
  /-- "missing operand after unary minus" -/
  | missingOperandAfterUnaryMinus
  /-- "missing operand before ')'" -/
  | missingOperandBeforeRParen
  /-- "invalid character in expression" -/
  | invalidCharacter
  /-- "missing operator between operands" -/
  | missingOperatorBetweenOperands
  /-- "empty expression" -/
  | emptyExpression
  /-- "expression ends with operator" -/
  | endsWithOperator
  /-- "mismatched ')'" -/
  | mismatchedRParen
  /-- "mismatched '('" -/
  | mismatchedLParen
  /-- "invalid expression" -/
  | invalidExpression
  /-- "cannot evaluate variable without bindings" -/
  | cannotEvaluateVariable
  /-- "malformed AST" -/
  | malformedAST
  /-- "tree is empty" -/
  | treeEmpty
  /-- "bad preorder" -/
  | badPreorder
  /-- "bad integer token: " ++ token -/
  | badIntegerToken (token : String)
  /-- "trailing garbage in preorder" -/
  | trailingGarbage
  /-- spec section 4.3: UnboundVariable(name) (modelled part of eval_pre) -/
  | unboundVariable (name : String)
  /-- model artifact: fuel ran out (unreachable for fuel = input length + 1) -/
  | fuelExhausted
deriving DecidableEq, Repr

/-- int64 minimum, `std::numeric_limits<int64_t>::min()`. -/
def int64Min : Int := -(2 ^ 63)

/-- int64 maximum, `std::numeric_limits<int64_t>::max()`. -/
def int64Max : Int := 2 ^ 63 - 1

/-- Whether a mathematical integer fits in `int64_t`. -/
def inInt64 (x : Int) : Bool := int64Min ≤ x && x ≤ int64Max

/-! ### Checked arithmetic (src/AST.cpp lines 158-190) -/

/-- `checked_add`: `__builtin_add_overflow`, throwing "overflow in addition". -/
def checked_add (left right : Int) : Except ASTErr Int :=
  if inInt64 (left + right) then .ok (left + right) else .error .overflowAdd

/-- `checked_sub`: `__builtin_sub_overflow`, throwing "overflow in subtraction". -/
def checked_sub (left right : Int) : Except ASTErr Int :=
  if inInt64 (left - right) then .ok (left - right) else .error .overflowSub

/-- `checked_mul`: `__builtin_mul_overflow`, throwing "overflow in multiplication". -/
def checked_mul (left right : Int) : Except ASTErr Int :=
  if inInt64 (left * right) then .ok (left * right) else .error .overflowMul

/-- `checked_div` (src/AST.cpp lines 182-190): division by zero check, then the
single overflowing case INT64_MIN / -1, then C++ `/` which truncates toward
zero (`Int.tdiv`). -/
def checked_div (left right : Int) : Except ASTErr Int :=
  if right = 0 then .error .divisionByZero
  else if left = int64Min ∧ right = -1 then .error .overflowDiv
  else .ok (Int.tdiv left right)

/-! ### AST nodes and the tree evaluator (src/AST.cpp lines 414-460)

The C++ `Node` stores a type tag, an int64 value, a name, and two owned child
pointers.  The three constructors (and the §3 ownership invariant of the spec)
guarantee that leaf nodes have no children and operator nodes have exactly two
non-null children, so the node type is embedded as the corresponding inductive
tree; the defensive null-child / unknown-tag branches of `get_value` guard
values this type cannot represent. -/

/-- `struct Node` as an inductive tree. `binop k l r` is a node with
`type` equal to the operator kind `k` and children `l`, `r`. -/
inductive Node where
  | num (value : Int)
  | var (variable_name : String)
  | binop (k : NodeType) (left right : Node)
deriving DecidableEq, Repr

/-- All integer literals of the tree fit in `int64_t` (automatically true of
any C++ `Node`, whose `value` field has type `int64_t`). -/
def Node.wf_int64 : Node → Bool
  | .num v => inInt64 v
  | .var _ => true
  | .binop _ l r => l.wf_int64 && r.wf_int64

/-- The tree contains no Variable nodes. -/
def Node.noVar : Node → Bool
  | .num _ => true
  | .var _ => false
  | .binop _ l r => l.noVar && r.noVar

/-- The tree contains no Div nodes. -/
def Node.noDiv : Node → Bool
  | .num _ => true
  | .var _ => true
  | .binop k l r => decide (k ≠ .div) && l.noDiv && r.noDiv

/-- `Node::get_value` (src/AST.cpp lines 434-460): recursive checked
evaluation.  A Number returns its value, a Variable throws (this evaluator
takes no bindings), an operator node combines the children's values with the
checked arithmetic above.  C++ leaves the evaluation order of the two
`get_value()` call arguments unspecified; the model evaluates left then right
(all theorems below that involve child failures are conditioned on both
children succeeding, where the order is irrelevant).  A `binop` whose tag is
`number`/`variable` corresponds to the final "malformed AST" branch. -/
def Node.get_value : Node → Except ASTErr Int
  | .num v => .ok v
  | .var _ => .error .cannotEvaluateVariable
  | .binop k l r => do
      let lv ← l.get_value
      let rv ← r.get_value
      match k with
      | .add => checked_add lv rv
      | .sub => checked_sub lv rv
      | .mult => checked_mul lv rv
      | .div => checked_div lv rv
      | _ => .error .malformedAST

/-! ### Numeric-literal helpers: decimal digit values -/

/-- Value of a list of ASCII digit characters read left to right (the value
accumulated by `std::from_chars` / `std::stoll` over the consumed digits). -/
def digitsVal (cs : List Char) : Nat :=
  cs.foldl (fun a c => 10 * a + (c.toNat - 48)) 0

/-! ### Tokenizer primitives (src/AST.cpp anonymous namespace) -/

/-- `parse_number` (src/AST.cpp lines 68-96): `std::from_chars` into an
`int64_t` starting at the current index.  It consumes the maximal digit run;
no digits is "missing digits in number", a value above INT64_MAX is
"integer literal overflow".  (At its single call site the current character
is a digit, so the signed-minus acceptance of `from_chars` never triggers.)
Returns the parsed value and the remaining characters. -/
def parse_number (cs : List Char) : Except ASTErr (Int × List Char) :=
  let digits := cs.takeWhile isDigitChar
  if digits.isEmpty then .error .missingDigits
  else if (digitsVal digits : Int) > int64Max then .error .integerLiteralOverflow
  else .ok ((digitsVal digits : Int), cs.dropWhile isDigitChar)

/-- `parse_negative_number` (src/AST.cpp lines 102-147): parse the magnitude
with `std::from_chars` into a `uint64_t`, then reject magnitudes above
`max_negative_magnitude = 2^63` (`from_chars` itself reports out-of-range
above UINT64_MAX with the same "integer literal overflow" result), and negate
(returning INT64_MIN directly when the magnitude is exactly 2^63). -/
def parse_negative_number (cs : List Char) : Except ASTErr (Int × List Char) :=
  let digits := cs.takeWhile isDigitChar
  if digits.isEmpty then .error .missingDigits
  else if (digitsVal digits : Int) > 2 ^ 63 then .error .integerLiteralOverflow
  else if (digitsVal digits : Int) = 2 ^ 63 then .ok (int64Min, cs.dropWhile isDigitChar)
  else .ok (-(digitsVal digits : Int), cs.dropWhile isDigitChar)

/-- `parse_variable_name` (src/AST.cpp lines 200-212): maximal run of
lowercase ASCII letters; returns the name and the remaining characters. -/
def parse_variable_name (cs : List Char) : String × List Char :=
  (String.mk (cs.takeWhile isLowerChar), cs.dropWhile isLowerChar)

/-! ### Shunting-yard helpers (src/AST.cpp) -/

/-- `get_precedence` (src/AST.cpp lines 22-33). -/
def get_precedence : TokenType → Int
  | .div | .mult => 2
  | .plus | .minus => 1
  | _ => -1

/-- `token_type_to_node_type` (src/AST.cpp lines 40-53). -/
def token_type_to_node_type : TokenType → Except ASTErr NodeType
  | .plus => .ok .add
  | .minus => .ok .sub
  | .mult => .ok .mult
  | .div => .ok .div
  | _ => .error .unexpectedOperatorToken

/-- `is_arithmetic_operator` (src/AST.cpp lines 60-63). -/
def is_arithmetic_operator (t : TokenType) : Bool :=
  t = .plus || t = .minus || t = .mult || t = .div

/-- `apply_top_operator` (src/AST.cpp lines 222-247): with the stacks as
lists (top = head), pop the top operator, pop right then left value, push the
combined node.  The empty-operator-stack check precedes the two-values
check, exactly as in the source. -/
def apply_top_operator (value_stack : List Node) (operator_stack : List TokenType) :
    Except ASTErr (List Node × List TokenType) :=
  match operator_stack with
  | [] => .error .missingOperator
  | op :: ops =>
    match value_stack with
    | r :: l :: vs => do
        let nt ← token_type_to_node_type op
        .ok (Node.binop nt l r :: vs, ops)
    | _ => .error .missingOperand

/-- `handle_operator` (src/AST.cpp lines 255-271): pop-and-apply while the
operator stack's top is not `(` and has precedence ≥ the incoming operator's,
then push the incoming operator.  The body of `apply_top_operator` is inlined
in the loop branch so the recursion is structural on the operator stack (the
loop guard already guarantees the stack is non-empty); the lemma
`handle_operator_pops` below re-states the step through `apply_top_operator`
itself. -/
def handle_operator (op : TokenType) (value_stack : List Node)
    (operator_stack : List TokenType) : Except ASTErr (List Node × List TokenType) :=
  match operator_stack with
  | [] => .ok (value_stack, [op])
  | t :: ops =>
    if t ≠ TokenType.lparen ∧ get_precedence t ≥ get_precedence op then
      match value_stack with
      | r :: l :: vs =>
        match token_type_to_node_type t with
        | .ok nt => handle_operator op (Node.binop nt l r :: vs) ops
        | .error e => .error e
      | _ => .error .missingOperand
    else .ok (value_stack, op :: t :: ops)

/-- The RParen loop of `AST::add_tokens_to_tree` (src/AST.cpp lines 578-592):
apply operators until a `(` is found (popping it), failing with
"mismatched ')'" if the stack empties first. -/
def drain_until_lparen (value_stack : List Node) (operator_stack : List TokenType) :
    Except ASTErr (List Node × List TokenType) :=
  match operator_stack with
  | [] => .error .mismatchedRParen
  | t :: ops =>
    if t = TokenType.lparen then .ok (value_stack, ops)
    else
      match value_stack with
      | r :: l :: vs =>
        match token_type_to_node_type t with
        | .ok nt => drain_until_lparen (Node.binop nt l r :: vs) ops
        | .error e => .error e
      | _ => .error .missingOperand

/-- The final drain loop of `AST::add_tokens_to_tree` (src/AST.cpp lines
610-617): apply all remaining operators, failing with "mismatched '('" on a
leftover `(`. -/
def drain_all (value_stack : List Node) (operator_stack : List TokenType) :
    Except ASTErr (List Node) :=
  match operator_stack with
  | [] => .ok value_stack
  | t :: ops =>
    if t = TokenType.lparen then .error .mismatchedLParen
    else
      match value_stack with
      | r :: l :: vs =>
        match token_type_to_node_type t with
        | .ok nt => drain_all (Node.binop nt l r :: vs) ops
        | .error e => .error e
      | _ => .error .missingOperand

/-- The token loop of `AST::add_tokens_to_tree` (src/AST.cpp lines 560-608).
All nine token kinds are covered, so the final "unexpected token" throw of the
source is unreachable. -/
def build_loop : List Token → List Node → List TokenType →
    Except ASTErr (List Node × List TokenType)
  | [], vs, ops => .ok (vs, ops)
  | tk :: rest, vs, ops =>
    match tk.type with
    | .number => build_loop rest (Node.num tk.value :: vs) ops
    | .var => build_loop rest (Node.var tk.variable_name :: vs) ops
    | .lparen => build_loop rest vs (TokenType.lparen :: ops)
    | .rparen =>
      match drain_until_lparen vs ops with
      | .ok (vs', ops') => build_loop rest vs' ops'
      | .error e => .error e
    | .endTok => .ok (vs, ops)
    | op =>
      match handle_operator op vs ops with
      | .ok (vs', ops') => build_loop rest vs' ops'
      | .error e => .error e

/-- `AST::add_tokens_to_tree` (src/AST.cpp lines 552-629) as a pure function
from the token sequence to the root node: run the token loop from empty
stacks, drain the operator stack, and require exactly one value to remain. -/
def add_tokens_to_tree (tokens : List Token) : Except ASTErr Node := do
  let (vs, ops) ← build_loop tokens [] []
  let vs' ← drain_all vs ops
  match vs' with
  | [t] => .ok t
  | _ => .error .invalidExpression

/-! ### Tokenizer (src/AST.cpp lines 280-410 and 478-542) -/

/-- `handle_unary_minus` (src/AST.cpp lines 280-316).  `cs` is the input
after the `-` character.  Look ahead past whitespace; a digit folds into a
negative Number token (via `parse_negative_number`, which resumes at the
lookahead position), while a lowercase letter, `(` or another `-` rewrites to
`Number(-1), Mult` consuming only the `-` itself; anything else (or end of
input) is "missing operand after unary minus".  Returns the emitted tokens
and the remaining characters. -/
def handle_unary_minus (cs : List Char) : Except ASTErr (List Token × List Char) :=
  match cs.dropWhile isSpaceChar with
  | [] => .error .missingOperandAfterUnaryMinus
  | d :: _ =>
    if isDigitChar d then do
      let (v, rest) ← parse_negative_number (cs.dropWhile isSpaceChar)
      .ok ([⟨.number, v, ""⟩], rest)
    else if ¬ (isLowerChar d || d = '(' || d = '-') then
      .error .missingOperandAfterUnaryMinus
    else
      .ok ([⟨.number, -1, ""⟩, ⟨.mult, 0, ""⟩], cs)

/-- `is_operand_valid` (src/AST.cpp lines 326-351): digit → Number token,
lowercase letter → Variable token, `(` → LParen; otherwise nothing is
consumed (`none`). -/
def is_operand_valid (c : Char) (cs : List Char) :
    Option (Except ASTErr (Token × List Char)) :=
  if isDigitChar c then
    some (do
      let (v, rest) ← parse_number (c :: cs)
      .ok (⟨.number, v, ""⟩, rest))
  else if isLowerChar c then
    some (let (name, rest) := parse_variable_name (c :: cs); .ok (⟨.var, 0, name⟩, rest))
  else if c = '(' then some (.ok (⟨.lparen, 0, ""⟩, cs))
  else none

/-- `handle_operator_or_close_paren` (src/AST.cpp lines 361-391). -/
def handle_operator_or_close_paren (c : Char) : Option TokenType :=
  if c = '+' then some .plus
  else if c = '-' then some .minus
  else if c = '*' then some .mult
  else if c = '/' then some .div
  else if c = ')' then some .rparen
  else none

/-- `validate_expected_operand` (src/AST.cpp lines 398-410): the error thrown
when an operand was expected but the character cannot start one. -/
def validate_expected_operand (c : Char) : ASTErr :=
  if c = ')' then .missingOperandBeforeRParen
  else if c = '+' || c = '*' || c = '/' then .missingOperand
  else .invalidCharacter

/-- The scanning loop of `AST::tokenize` (src/AST.cpp lines 486-532), with the
end-of-input checks of lines 534-541.  Mirrors the C++ mutable state: the
remaining input, `is_awaiting_operand`, `saw_non_whitespace`, and the token
vector built so far (`acc`).  Returns the tokens emitted up to the point of
return together with the error, if any — on failure the C++ `tokens_` vector
retains exactly the tokens emitted so far.  `fuel` makes the recursion
structural; every iteration consumes at least one character, so any fuel
greater than the input length never exhausts. -/
def tokenize_scan : Nat → List Char → Bool → Bool → List Token →
    List Token × Option ASTErr
  | 0, _, _, _, acc => (acc, some .fuelExhausted)
  | _ + 1, [], awaiting, saw, acc =>
    if ¬ saw then (acc, some .emptyExpression)
    else if awaiting then (acc, some .endsWithOperator)
    else (acc ++ [⟨.endTok, 0, ""⟩], none)
  | fuel + 1, c :: cs, awaiting, saw, acc =>
    if isSpaceChar c then tokenize_scan fuel cs awaiting saw acc
    else
      if c = '-' ∧ awaiting then
        match handle_unary_minus cs with
        | .error e => (acc, some e)
        | .ok (emitted, rest) =>
          tokenize_scan fuel rest
            (decide ((emitted.getLastD ⟨.endTok, 0, ""⟩).type = .mult))
            true (acc ++ emitted)
      else if awaiting then
        match is_operand_valid c cs with
        | some (.ok (tok, rest)) =>
          tokenize_scan fuel rest (decide (tok.type = .lparen)) true (acc ++ [tok])
        | some (.error e) => (acc, some e)
        | none => (acc, some (validate_expected_operand c))
      else
        match handle_operator_or_close_paren c with
        | some tt =>
          tokenize_scan fuel cs (decide (tt ≠ .rparen)) true (acc ++ [⟨tt, 0, ""⟩])
        | none =>
          if isDigitChar c || isLowerChar c || c = '(' then
            (acc, some .missingOperatorBetweenOperands)
          else (acc, some .invalidCharacter)

/-- `AST::tokenize` on a character list: run the scan from the initial state.
The fuel `cs.length + 1` is sufficient (each step consumes a character). -/
def tokenize_chars (cs : List Char) : List Token × Option ASTErr :=
  tokenize_scan (cs.length + 1) cs true false []

/-- `AST::tokenize` as a pure function: the token sequence, or the error. -/
def tokenize (input : String) : Except ASTErr (List Token) :=
  match tokenize_chars input.data with
  | (toks, none) => .ok toks
  | (_, some e) => .error e

/-! ### The `AST` object (src/AST.h lines 61-76, src/AST.cpp lines 468-668) -/

/-- The mutable state of a C++ `AST` object: `root_` and `tokens_`. -/
structure ASTState where
  root : Option Node
  tokens : List Token
deriving DecidableEq, Repr

/-- A freshly constructed `AST`. -/
def ASTState.fresh : ASTState := ⟨none, []⟩

/-- `AST::clear` (src/AST.cpp lines 468-471). -/
def AST_clear (_ : ASTState) : ASTState := ⟨none, []⟩

/-- `AST::tokenize` as a state transformer (src/AST.cpp lines 478-542): clears
`tokens_`, then stores every token emitted before returning or throwing. -/
def AST_tokenize (st : ASTState) (input : String) : ASTState × Option ASTErr :=
  let (toks, err) := tokenize_chars input.data
  ({ st with tokens := toks }, err)

/-- `AST::add_tokens_to_tree` as a state transformer (src/AST.cpp lines
552-629): resets `root_` first, and installs the new root only on success. -/
def AST_add_tokens_to_tree (st : ASTState) : ASTState × Option ASTErr :=
  match add_tokens_to_tree st.tokens with
  | .ok t => ({ st with root := some t }, none)
  | .error e => ({ st with root := none }, some e)

/-- `AST::parse` (src/AST.cpp lines 637-641): `clear`, `tokenize`,
`add_tokens_to_tree`; an exception aborts the sequence where it occurs. -/
def AST_parse (st : ASTState) (input : String) : ASTState × Option ASTErr :=
  let st1 := AST_clear st
  let (st2, err) := AST_tokenize st1 input
  match err with
  | some e => (st2, some e)
  | none => AST_add_tokens_to_tree st2

/-- `AST::evaluate` (src/AST.cpp lines 648-653): "tree is empty" when no root
is installed, otherwise `root_->get_value()`. -/
def AST_evaluate (st : ASTState) : Except ASTErr Int :=
  match st.root with
  | none => .error .treeEmpty
  | some t => t.get_value

/-- The expression-to-value pipeline used throughout the tests below:
tokenize, build, evaluate (the in-memory path of build mode followed by
`Node::get_value`). -/
def full_eval (input : String) : Except ASTErr Int := do
  let toks ← tokenize input
  let t ← add_tokens_to_tree toks
  t.get_value

/-! ### Preorder codec (src/main.cpp) -/

/-- Decimal digits of a natural number, most significant first — the model of
`std::ostream <<` for the magnitude.  `fuel` bounds the recursion depth (one
decimal digit per unit); `natDec` supplies fuel 20, enough for any value
below 10^20 and in particular for any `uint64` magnitude. -/
def natDecF : Nat → Nat → List Char
  | 0, _ => []
  | fuel + 1, n =>
    if n < 10 then [Nat.digitChar n]
    else natDecF fuel (n / 10) ++ [Nat.digitChar (n % 10)]

/-- Decimal digit string of a natural number below 10^20. -/
def natDec (n : Nat) : List Char := natDecF 20 n

/-- `operator<<(std::ostream, int64_t)`: canonical decimal rendering with a
leading `-` for negative values. -/
def int64ToDecimal (v : Int) : String :=
  if v < 0 then String.mk ('-' :: natDec (-v).toNat) else String.mk (natDec v.toNat)

/-- `write_pre` (src/main.cpp lines 183-210) as the list of whitespace
separated tokens written to the stream (each C++ token is followed by `' '`,
so `operator>>` on the written stream yields exactly this list).  Number
nodes write their decimal value, Variable nodes their name; operator nodes
write `+`, `-` or `*` and recurse left then right, and any other internal
node — in particular a Div node — throws "malformed AST". -/
def write_pre : Node → Except ASTErr (List String)
  | .num v => .ok [int64ToDecimal v]
  | .var name => .ok [name]
  | .binop k l r => do
      let sym ← match k with
        | .add => Except.ok "+"
        | .sub => Except.ok "-"
        | .mult => Except.ok "*"
        | _ => Except.error ASTErr.malformedAST
      let ls ← write_pre l
      let rs ← write_pre r
      .ok (sym :: (ls ++ rs))

/-- `is_variable_token` (src/main.cpp lines 252-262): non-empty and all
lowercase ASCII. -/
def is_variable_token (token : String) : Bool :=
  ¬ token.data.isEmpty && token.data.all isLowerChar

/-- The optional-sign handling of `std::stoll`: a leading `-` negates, a
leading `+` is skipped. -/
def splitSign : List Char → Bool × List Char
  | '-' :: t => (true, t)
  | '+' :: t => (false, t)
  | cs => (false, cs)

/-- `parse_int64_token` (src/main.cpp lines 271-285) on the token's
characters (`token` is only carried for the error payload): `std::stoll`
(skip leading whitespace, optional sign, maximal base-10 digit run;
out-of-range and no-conversion both surface as the same ASTException here),
plus the requirement that the whole token was consumed. -/
def parse_int64_core (token : String) (cs0 : List Char) : Except ASTErr Int :=
  let cs := cs0.dropWhile isSpaceChar
  let neg := (splitSign cs).1
  let cs1 := (splitSign cs).2
  let digits := cs1.takeWhile isDigitChar
  if digits.isEmpty then .error (.badIntegerToken token)
  else
    let v : Int := if neg then -(digitsVal digits : Int) else (digitsVal digits : Int)
    if ¬ inInt64 v then .error (.badIntegerToken token)
    else if ¬ (cs1.dropWhile isDigitChar).isEmpty then .error (.badIntegerToken token)
    else .ok v

/-- `parse_int64_token` (src/main.cpp lines 271-285). -/
def parse_int64_token (token : String) : Except ASTErr Int :=
  parse_int64_core token token.data

/-- Two's-complement wraparound into int64 — the model of the *unchecked*
`l + r` / `l - r` / `l * r` of `eval_pre` (src/main.cpp lines 236-242).
(Signed overflow is undefined behavior in C++; wraparound is the conventional
shallow-embedding semantics for it.  The essential point for the claims is
that the code performs no overflow check and never fails.) -/
def wrap64 (x : Int) : Int := (x + 2 ^ 63) % 2 ^ 64 - 2 ^ 63

/-- Variable bindings: `std::unordered_map<std::string, int64_t>` as an
association list with unique keys, looked up with `List.lookup`. -/
abbrev Bindings := List (String × Int)

/-- `eval_pre` (src/main.cpp lines 225-243 and its truncated tail): read one
token; `+`, `-`, `*` recursively evaluate two subtrees (left then right) and
combine *unchecked*; otherwise the leaf tail runs.

Modelled from the spec: the number/variable tail of `eval_pre` is missing
from src/main.cpp (the function body is truncated right after the
"// Number token." comment, and its two-parameter declared signature shows it
receives the bindings map).  Following spec §4.4 and §4.3, and using the
in-source helpers `is_variable_token` and `parse_int64_token`, the tail is
modelled as: a variable token is looked up in the bindings (failing with
`UnboundVariable(name)` when absent) and any other token is parsed with
`parse_int64_token`.

`fuel` bounds the recursion; each call consumes at least one token, so
`eval_pre` runs with fuel `tokens.length + 1`, which never exhausts. -/
def eval_pre_fuel (vars : Bindings) : Nat → List String →
    Except ASTErr (Int × List String)
  | 0, _ => .error .fuelExhausted
  | _ + 1, [] => .error .badPreorder
  | fuel + 1, tok :: rest =>
    if tok = "+" ∨ tok = "-" ∨ tok = "*" then do
      let (l, rest1) ← eval_pre_fuel vars fuel rest
      let (r, rest2) ← eval_pre_fuel vars fuel rest1
      if tok = "+" then .ok (wrap64 (l + r), rest2)
      else if tok = "-" then .ok (wrap64 (l - r), rest2)
      else .ok (wrap64 (l * r), rest2)
    else
      if is_variable_token tok then
        match vars.lookup tok with
        | some v => .ok (v, rest)
        | none => .error (.unboundVariable tok)
      else do
        let v ← parse_int64_token tok
        .ok (v, rest)

/-- `eval_pre` on a finite token stream: consumes the tokens of one preorder
subtree and returns its value together with the remaining tokens. -/
def eval_pre (vars : Bindings) (tokens : List String) :
    Except ASTErr (Int × List String) :=
  eval_pre_fuel vars (tokens.length + 1) tokens

/-- The eval-mode evaluation of `run_eval_mode` (src/main.cpp lines 150-158):
`eval_pre` on the whole stream followed by the trailing-garbage check. -/
def eval_pre_top (tokens : List String) (vars : Bindings) : Except ASTErr Int :=
  match eval_pre vars tokens with
  | .ok (v, []) => .ok v
  | .ok (_, _ :: _) => .error .trailingGarbage
  | .error e => .error e

/-- Build mode's core (src/main.cpp `run_build_mode`): parse the expression
and serialize the tree to the preorder token stream. -/
def build_pre (input : String) : Except ASTErr (List String) := do
  let toks ← tokenize input
  let t ← add_tokens_to_tree toks
  write_pre t

/-- `evaluate(tree) == streaming_evaluate(serialize(tree))` with no bindings:
the round-trip composition of spec §8. -/
def round_trip_rhs (t : Node) : Except ASTErr Int := do
  let pre ← write_pre t
  eval_pre_top pre []

/-! ### Helper lemmas -/

lemma wrap64_eq_self {x : Int} (h : inInt64 x = true) : wrap64 x = x := by
  simp only [inInt64, int64Min, int64Max, Bool.and_eq_true, decide_eq_true_eq] at h
  have h0 : (0 : Int) ≤ x + 2 ^ 63 := by omega
  have h1 : x + 2 ^ 63 < 2 ^ 64 := by omega
  unfold wrap64
  rw [Int.emod_eq_of_lt h0 h1]
  omega

lemma takeWhile_eq_self_of_all {p : Char → Bool} {l : List Char}
    (h : l.all p = true) : l.takeWhile p = l := by
  induction l with
  | nil => rfl
  | cons c t ih =>
    simp only [List.all_cons, Bool.and_eq_true] at h
    simp [List.takeWhile_cons, h.1, ih h.2]

lemma dropWhile_eq_nil_of_all {p : Char → Bool} {l : List Char}
    (h : l.all p = true) : l.dropWhile p = [] := by
  induction l with
  | nil => rfl
  | cons c t ih =>
    simp only [List.all_cons, Bool.and_eq_true] at h
    simp [List.dropWhile_cons, h.1, ih h.2]

lemma dropWhile_eq_self_of_head {p : Char → Bool} {c : Char} {t : List Char}
    (h : p c = false) : (c :: t).dropWhile p = c :: t := by
  simp [List.dropWhile_cons, h]

lemma isSpaceChar_of_isDigitChar {c : Char} (h : isDigitChar c = true) :
    isSpaceChar c = false := by
  cases hs : isSpaceChar c with
  | false => rfl
  | true =>
    exfalso
    simp only [isDigitChar, Bool.and_eq_true, decide_eq_true_eq] at h
    simp only [isSpaceChar, Bool.or_eq_true, Bool.and_eq_true, decide_eq_true_eq] at hs
    omega

lemma isLowerChar_of_isDigitChar {c : Char} (h : isDigitChar c = true) :
    isLowerChar c = false := by
  cases hs : isLowerChar c with
  | false => rfl
  | true =>
    exfalso
    simp only [isDigitChar, Bool.and_eq_true, decide_eq_true_eq] at h
    simp only [isLowerChar, Bool.and_eq_true, decide_eq_true_eq] at hs
    omega

lemma ne_of_isDigitChar {c : Char} (h : isDigitChar c = true) :
    c ≠ '-' ∧ c ≠ '+' ∧ c ≠ '*' ∧ c ≠ '/' ∧ c ≠ '(' := by
  simp only [isDigitChar, Bool.and_eq_true, decide_eq_true_eq] at h
  refine ⟨?_, ?_, ?_, ?_, ?_⟩ <;>
    · intro hc; subst hc; revert h; decide

lemma digitChar_toNat : ∀ n, n < 10 → (Nat.digitChar n).toNat = 48 + n := by decide

lemma digitChar_isDigit : ∀ n, n < 10 → isDigitChar (Nat.digitChar n) = true := by decide

lemma digitsVal_append_digit (xs : List Char) (c : Char) :
    digitsVal (xs ++ [c]) = 10 * digitsVal xs + (c.toNat - 48) := by
  simp [digitsVal, List.foldl_append]

lemma natDecF_succ (f n : Nat) : natDecF (f + 1) n =
    if n < 10 then [Nat.digitChar n]
    else natDecF f (n / 10) ++ [Nat.digitChar (n % 10)] := rfl

/-- Correctness of the decimal rendering: for `n < 10 ^ (f + 1)` the digit
list is non-empty, all digits, and reads back to `n`. -/
lemma natDecF_spec : ∀ f n, n < 10 ^ (f + 1) →
    natDecF (f + 1) n ≠ [] ∧ (natDecF (f + 1) n).all isDigitChar = true ∧
      digitsVal (natDecF (f + 1) n) = n := by
  intro f
  induction f with
  | zero =>
    intro n hn
    have h10 : n < 10 := by simpa using hn
    rw [natDecF_succ, if_pos h10]
    refine ⟨by simp, by simp [digitChar_isDigit n h10], ?_⟩
    simp [digitsVal, digitChar_toNat n h10]
  | succ f ih =>
    intro n hn
    by_cases h10 : n < 10
    · rw [natDecF_succ, if_pos h10]
      refine ⟨by simp, by simp [digitChar_isDigit n h10], ?_⟩
      simp [digitsVal, digitChar_toNat n h10]
    · have hdiv : n / 10 < 10 ^ (f + 1) := by
        rw [Nat.div_lt_iff_lt_mul (by norm_num)]
        calc n < 10 ^ (f + 1 + 1) := hn
        _ = 10 ^ (f + 1) * 10 := by ring
      obtain ⟨hne, hall, hval⟩ := ih (n / 10) hdiv
      have hm : n % 10 < 10 := Nat.mod_lt _ (by norm_num)
      rw [natDecF_succ, if_neg h10]
      refine ⟨by simp, ?_, ?_⟩
      · simp only [List.all_append, hall, Bool.true_and, List.all_cons, List.all_nil,
          Bool.and_true]
        exact digitChar_isDigit _ hm
      · rw [digitsVal_append_digit, hval, digitChar_toNat _ hm]
        omega

lemma natDec_spec {n : Nat} (hn : n < 10 ^ 20) :
    natDec n ≠ [] ∧ (natDec n).all isDigitChar = true ∧ digitsVal (natDec n) = n :=
  natDecF_spec 19 n hn

lemma splitSign_minus (t : List Char) : splitSign ('-' :: t) = (true, t) := rfl

lemma splitSign_cons_of_digit {d : Char} {t : List Char} (hd : isDigitChar d = true) :
    splitSign (d :: t) = (false, d :: t) := by
  obtain ⟨h1, h2, -⟩ := ne_of_isDigitChar hd
  unfold splitSign
  split
  · rename_i heq; rw [List.cons.injEq] at heq; exact absurd heq.1 h1
  · rename_i heq; rw [List.cons.injEq] at heq; exact absurd heq.1 h2
  · rfl

/-- `stoll` round trip, unsigned form: an all-digit in-range token parses to
its value. -/
lemma parse_int64_core_digits {tok : String} {ds : List Char} (hne : ds ≠ [])
    (hall : ds.all isDigitChar = true) (hr : inInt64 (digitsVal ds) = true) :
    parse_int64_core tok ds = .ok (digitsVal ds) := by
  obtain ⟨d, t, rfl⟩ : ∃ d t, ds = d :: t := by
    cases ds with
    | nil => exact absurd rfl hne
    | cons d t => exact ⟨d, t, rfl⟩
  have hd : isDigitChar d = true := by
    simp only [List.all_cons, Bool.and_eq_true] at hall
    exact hall.1
  unfold parse_int64_core
  simp only [dropWhile_eq_self_of_head (isSpaceChar_of_isDigitChar hd),
    splitSign_cons_of_digit hd, takeWhile_eq_self_of_all hall,
    dropWhile_eq_nil_of_all hall]
  simp [List.isEmpty_iff, hr]

/-- `stoll` round trip, negative form: a `-` followed by an all-digit run
parses to the negated value when in range. -/
lemma parse_int64_core_neg_digits {tok : String} {ds : List Char} (hne : ds ≠ [])
    (hall : ds.all isDigitChar = true)
    (hr : inInt64 (-(digitsVal ds : Int)) = true) :
    parse_int64_core tok ('-' :: ds) = .ok (-(digitsVal ds : Int)) := by
  unfold parse_int64_core
  have hne' : ds.isEmpty = false := by
    cases ds with
    | nil => exact absurd rfl hne
    | cons d t => rfl
  simp only [dropWhile_eq_self_of_head (by decide : isSpaceChar '-' = false),
    splitSign_minus, takeWhile_eq_self_of_all hall,
    dropWhile_eq_nil_of_all hall]
  simp [hne', List.isEmpty_iff, hr]

lemma toNat_lt_pow20 {v : Int} (h : inInt64 v = true) :
    v.toNat < 10 ^ 20 ∧ (-v).toNat < 10 ^ 20 := by
  simp only [inInt64, int64Min, int64Max, Bool.and_eq_true, decide_eq_true_eq] at h
  constructor <;> omega

/-- The serializer's decimal rendering round-trips through
`parse_int64_token` for every in-range int64. -/
lemma parse_int64_int64ToDecimal {v : Int} (h : inInt64 v = true) :
    parse_int64_token (int64ToDecimal v) = .ok v := by
  obtain ⟨hp, hn⟩ := toNat_lt_pow20 h
  by_cases hv : v < 0
  · have hdef : int64ToDecimal v = String.mk ('-' :: natDec (-v).toNat) := by
      unfold int64ToDecimal; rw [if_pos hv]
    obtain ⟨hne, hall, hval⟩ := natDec_spec hn
    have hval' : ((digitsVal (natDec (-v).toNat) : Int)) = -v := by
      rw [hval]; omega
    rw [hdef]
    show parse_int64_core _ ('-' :: natDec (-v).toNat) = .ok v
    rw [parse_int64_core_neg_digits hne hall (by rw [hval']; simpa using h)]
    rw [hval']; congr 1; omega
  · have hdef : int64ToDecimal v = String.mk (natDec v.toNat) := by
      unfold int64ToDecimal; rw [if_neg hv]
    obtain ⟨hne, hall, hval⟩ := natDec_spec hp
    have hval' : ((digitsVal (natDec v.toNat) : Int)) = v := by
      rw [hval]; omega
    rw [hdef]
    show parse_int64_core _ (natDec v.toNat) = .ok v
    rw [parse_int64_core_digits hne hall (by rw [hval']; exact h)]
    rw [hval']

/-- A non-empty all-digit string is not one of the operator tokens and not a
variable token. -/
lemma digit_string_not_special {ds : List Char} (hne : ds ≠ [])
    (hall : ds.all isDigitChar = true) :
    ¬ (String.mk ds = "+" ∨ String.mk ds = "-" ∨ String.mk ds = "*") ∧
      is_variable_token (String.mk ds) = false := by
  obtain ⟨d, t, rfl⟩ : ∃ d t, ds = d :: t := by
    cases ds with
    | nil => exact absurd rfl hne
    | cons d t => exact ⟨d, t, rfl⟩
  have hd : isDigitChar d = true := by
    simp only [List.all_cons, Bool.and_eq_true] at hall
    exact hall.1
  obtain ⟨h1, h2, h3, -, -⟩ := ne_of_isDigitChar hd
  constructor
  · intro hor
    rcases hor with hop | hop | hop
    · have hdata : d :: t = ['+'] := congrArg String.data hop
      simp only [List.cons.injEq] at hdata
      exact h2 hdata.1
    · have hdata : d :: t = ['-'] := congrArg String.data hop
      simp only [List.cons.injEq] at hdata
      exact h1 hdata.1
    · have hdata : d :: t = ['*'] := congrArg String.data hop
      simp only [List.cons.injEq] at hdata
      exact h3 hdata.1
  · show (¬ (d :: t).isEmpty && (d :: t).all isLowerChar) = false
    simp [isLowerChar_of_isDigitChar hd]

lemma natDecF_ne_nil (f n : Nat) : natDecF (f + 1) n ≠ [] := by
  rw [natDecF_succ]
  split <;> simp

lemma natDecF_all_digits : ∀ f n, (natDecF f n).all isDigitChar = true := by
  intro f
  induction f with
  | zero => intro n; rfl
  | succ f ih =>
    intro n
    rw [natDecF_succ]
    split
    · rename_i h10
      simp [digitChar_isDigit n h10]
    · simp only [List.all_append, ih (n / 10), Bool.true_and, List.all_cons,
        List.all_nil, Bool.and_true]
      exact digitChar_isDigit _ (Nat.mod_lt _ (by norm_num))

/-- The serialized form of a number is not an operator token and not a
variable token. -/
lemma int64ToDecimal_not_special (v : Int) :
    ¬ (int64ToDecimal v = "+" ∨ int64ToDecimal v = "-" ∨ int64ToDecimal v = "*") ∧
      is_variable_token (int64ToDecimal v) = false := by
  by_cases hv : v < 0
  · have hdef : int64ToDecimal v = String.mk ('-' :: natDec (-v).toNat) := by
      unfold int64ToDecimal; rw [if_pos hv]
    have hne : natDec (-v).toNat ≠ [] := natDecF_ne_nil 19 _
    rw [hdef]
    constructor
    · intro hor
      rcases hor with hop | hop | hop
      · have hdata : '-' :: natDec (-v).toNat = ['+'] := congrArg String.data hop
        simp at hdata
      · have hdata : '-' :: natDec (-v).toNat = ['-'] := congrArg String.data hop
        simp only [List.cons.injEq] at hdata
        exact hne hdata.2
      · have hdata : '-' :: natDec (-v).toNat = ['*'] := congrArg String.data hop
        simp at hdata
    · show (¬ ('-' :: natDec (-v).toNat).isEmpty
          && ('-' :: natDec (-v).toNat).all isLowerChar) = false
      simp [show isLowerChar '-' = false from rfl]
  · have hdef : int64ToDecimal v = String.mk (natDec v.toNat) := by
      unfold int64ToDecimal; rw [if_neg hv]
    rw [hdef]
    exact digit_string_not_special (natDecF_ne_nil 19 _) (natDecF_all_digits 20 _)

lemma except_bind_ok {α β : Type} (a : α) (f : α → Except ASTErr β) :
    (Except.ok a >>= f) = f a := rfl

lemma except_bind_err {α β : Type} (e : ASTErr) (f : α → Except ASTErr β) :
    ((Except.error e : Except ASTErr α) >>= f) = Except.error e := rfl

lemma eval_pre_fuel_succ_cons (vars : Bindings) (f : Nat) (tok : String)
    (rest : List String) : eval_pre_fuel vars (f + 1) (tok :: rest) =
    (if tok = "+" ∨ tok = "-" ∨ tok = "*" then do
      let (l, rest1) ← eval_pre_fuel vars f rest
      let (r, rest2) ← eval_pre_fuel vars f rest1
      if tok = "+" then .ok (wrap64 (l + r), rest2)
      else if tok = "-" then .ok (wrap64 (l - r), rest2)
      else .ok (wrap64 (l * r), rest2)
    else
      if is_variable_token tok then
        match vars.lookup tok with
        | some v => .ok (v, rest)
        | none => .error (.unboundVariable tok)
      else do
        let v ← parse_int64_token tok
        .ok (v, rest)) := rfl

/-- Each successful `eval_pre` call consumes at least one token. -/
lemma eval_pre_fuel_consume (vars : Bindings) : ∀ f toks v rest,
    eval_pre_fuel vars f toks = .ok (v, rest) → rest.length < toks.length := by
  intro f
  induction f with
  | zero =>
    intro toks v rest h
    simp [eval_pre_fuel] at h
  | succ f ih =>
    intro toks v rest h
    match toks with
    | [] => simp [eval_pre_fuel] at h
    | tok :: ts =>
      rw [eval_pre_fuel_succ_cons] at h
      by_cases hop : tok = "+" ∨ tok = "-" ∨ tok = "*"
      · rw [if_pos hop] at h
        cases h1 : eval_pre_fuel vars f ts with
        | error e => simp [h1, except_bind_err] at h
        | ok p =>
          obtain ⟨l, rest1⟩ := p
          simp only [h1, except_bind_ok] at h
          cases h2 : eval_pre_fuel vars f rest1 with
          | error e => simp [h2, except_bind_err] at h
          | ok q =>
            obtain ⟨r, rest2⟩ := q
            simp only [h2, except_bind_ok] at h
            have hr2 : rest = rest2 := by
              split at h
              · simp_all
              · split at h
                · simp_all
                · simp_all
            subst hr2
            have := ih ts l rest1 h1
            have := ih rest1 r rest h2
            simp only [List.length_cons]
            omega
      · rw [if_neg hop] at h
        have hrest : rest = ts := by
          split at h
          · split at h <;> simp_all
          · cases hp : parse_int64_token tok with
            | error e => simp [hp, except_bind_err] at h
            | ok w => simp only [hp, except_bind_ok] at h; simp_all
        subst hrest
        simp

/-- Success of `eval_pre_fuel` is preserved by adding fuel. -/
lemma eval_pre_fuel_mono (vars : Bindings) : ∀ f g toks v rest, f ≤ g →
    eval_pre_fuel vars f toks = .ok (v, rest) →
    eval_pre_fuel vars g toks = .ok (v, rest) := by
  intro f
  induction f with
  | zero =>
    intro g toks v rest _ h
    simp [eval_pre_fuel] at h
  | succ f ih =>
    intro g toks v rest hfg h
    obtain ⟨g', rfl⟩ : ∃ g', g = g' + 1 := by
      cases g with
      | zero => omega
      | succ g' => exact ⟨g', rfl⟩
    have hfg' : f ≤ g' := by omega
    match toks with
    | [] => simp [eval_pre_fuel] at h
    | tok :: ts =>
      rw [eval_pre_fuel_succ_cons] at h ⊢
      by_cases hop : tok = "+" ∨ tok = "-" ∨ tok = "*"
      · rw [if_pos hop] at h ⊢
        cases h1 : eval_pre_fuel vars f ts with
        | error e => simp [h1, except_bind_err] at h
        | ok p =>
          obtain ⟨l, rest1⟩ := p
          simp only [h1, except_bind_ok] at h
          cases h2 : eval_pre_fuel vars f rest1 with
          | error e => simp [h2, except_bind_err] at h
          | ok q =>
            obtain ⟨r, rest2⟩ := q
            simp only [h2, except_bind_ok] at h
            simp only [ih g' ts l rest1 hfg' h1, except_bind_ok]
            simp only [ih g' rest1 r rest2 hfg' h2, except_bind_ok]
            exact h
      · rw [if_neg hop] at h ⊢
        exact h

/-- Round-trip workhorse: a Variable-free, Div-free, int64-well-formed tree
whose checked evaluation succeeds serializes successfully, and streaming
evaluation of the serialized tokens (before any suffix) returns the same
value, consuming exactly those tokens. -/
lemma write_pre_eval_pre : ∀ t : Node, t.noVar = true → t.noDiv = true →
    t.wf_int64 = true → ∀ v : Int, t.get_value = .ok v →
    ∃ ts, write_pre t = .ok ts ∧
      ∀ f rest, ts.length ≤ f → eval_pre_fuel [] f (ts ++ rest) = .ok (v, rest) := by
  intro t
  induction t with
  | num v0 =>
    intro _ _ hw v he
    have hv0 : v0 = v := by
      simpa [Node.get_value] using he
    subst hv0
    have hw' : inInt64 v0 = true := by simpa [Node.wf_int64] using hw
    refine ⟨[int64ToDecimal v0], rfl, ?_⟩
    intro f rest hf
    obtain ⟨f', rfl⟩ : ∃ f', f = f' + 1 := by
      cases f with
      | zero => simp at hf
      | succ f' => exact ⟨f', rfl⟩
    rw [List.cons_append, List.nil_append, eval_pre_fuel_succ_cons]
    obtain ⟨hnop, hnvar⟩ := int64ToDecimal_not_special v0
    rw [if_neg hnop, if_neg (by simp [hnvar])]
    simp only [parse_int64_int64ToDecimal hw', except_bind_ok]
  | var s =>
    intro hv _ _ v he
    simp [Node.noVar] at hv
  | binop k l r ihl ihr =>
    intro hv hd hw v he
    simp only [Node.noVar, Bool.and_eq_true] at hv
    simp only [Node.noDiv, Bool.and_eq_true, decide_eq_true_eq] at hd
    simp only [Node.wf_int64, Bool.and_eq_true] at hw
    obtain ⟨⟨hk, hdl⟩, hdr⟩ := hd
    simp only [Node.get_value] at he
    cases hl' : l.get_value with
    | error e => rw [hl', except_bind_err] at he; exact absurd he (by simp)
    | ok lv =>
      rw [hl', except_bind_ok] at he
      cases hr' : r.get_value with
      | error e => rw [hr', except_bind_err] at he; exact absurd he (by simp)
      | ok rv =>
        rw [hr', except_bind_ok] at he
        obtain ⟨ls, hls, ihl'⟩ := ihl hv.1 hdl hw.1 lv hl'
        obtain ⟨rs, hrs, ihr'⟩ := ihr hv.2 hdr hw.2 rv hr'
        -- name the operator symbol and establish the combined result
        have main : ∀ sym : String,
            (sym = "+" ∨ sym = "-" ∨ sym = "*") →
            (sym = "+" → wrap64 (lv + rv) = v) →
            (sym = "-" → wrap64 (lv - rv) = v) →
            (sym = "*" → wrap64 (lv * rv) = v) →
            write_pre (Node.binop k l r) = .ok (sym :: (ls ++ rs)) →
            ∃ ts, write_pre (Node.binop k l r) = .ok ts ∧
              ∀ f rest, ts.length ≤ f →
                eval_pre_fuel [] f (ts ++ rest) = .ok (v, rest) := by
          intro sym hsym hadd hsub hmul hwp
          refine ⟨sym :: (ls ++ rs), hwp, ?_⟩
          intro f rest hf
          obtain ⟨f', rfl⟩ : ∃ f', f = f' + 1 := by
            cases f with
            | zero => simp at hf
            | succ f' => exact ⟨f', rfl⟩
          simp only [List.length_cons, List.length_append, Nat.add_le_add_iff_right] at hf
          rw [List.cons_append, eval_pre_fuel_succ_cons, if_pos hsym]
          rw [List.append_assoc]
          simp only [ihl' f' (rs ++ rest) (by omega), except_bind_ok]
          simp only [ihr' f' rest (by omega), except_bind_ok]
          rcases hsym with hs | hs | hs
          · subst hs
            rw [if_pos rfl, hadd rfl]
          · subst hs
            rw [if_neg (by decide), if_pos rfl, hsub rfl]
          · subst hs
            rw [if_neg (by decide), if_neg (by decide), hmul rfl]
        cases k with
        | number => exact absurd he (by simp)
        | var => exact absurd he (by simp)
        | div => exact absurd rfl hk
        | add =>
          have hodd : inInt64 (lv + rv) = true ∧ lv + rv = v := by
            by_cases hin : inInt64 (lv + rv) = true
            · refine ⟨hin, ?_⟩
              simpa [checked_add, hin] using he
            · simp [checked_add, hin] at he
          have hwp : write_pre (Node.binop .add l r) = .ok ("+" :: (ls ++ rs)) := by
            simp only [write_pre, hls, hrs, except_bind_ok]
          have hval : wrap64 (lv + rv) = v := by
            rw [wrap64_eq_self hodd.1, hodd.2]
          exact main "+" (by simp) (fun _ => hval) (fun hcon => by simp at hcon)
            (fun hcon => by simp at hcon) hwp
        | sub =>
          have hodd : inInt64 (lv - rv) = true ∧ lv - rv = v := by
            by_cases hin : inInt64 (lv - rv) = true
            · refine ⟨hin, ?_⟩
              simpa [checked_sub, hin] using he
            · simp [checked_sub, hin] at he
          have hwp : write_pre (Node.binop .sub l r) = .ok ("-" :: (ls ++ rs)) := by
            simp only [write_pre, hls, hrs, except_bind_ok]
          have hval : wrap64 (lv - rv) = v := by
            rw [wrap64_eq_self hodd.1, hodd.2]
          exact main "-" (by simp) (fun hcon => by simp at hcon) (fun _ => hval)
            (fun hcon => by simp at hcon) hwp
        | mult =>
          have hodd : inInt64 (lv * rv) = true ∧ lv * rv = v := by
            by_cases hin : inInt64 (lv * rv) = true
            · refine ⟨hin, ?_⟩
              simpa [checked_mul, hin] using he
            · simp [checked_mul, hin] at he
          have hwp : write_pre (Node.binop .mult l r) = .ok ("*" :: (ls ++ rs)) := by
            simp only [write_pre, hls, hrs, except_bind_ok]
          have hval : wrap64 (lv * rv) = v := by
            rw [wrap64_eq_self hodd.1, hodd.2]
          exact main "*" (by simp) (fun hcon => by simp at hcon)
            (fun hcon => by simp at hcon) (fun _ => hval) hwp

lemma tokenize_scan_succ_nil (f : Nat) (awaiting saw : Bool) (acc : List Token) :
    tokenize_scan (f + 1) [] awaiting saw acc =
    (if ¬ saw then (acc, some .emptyExpression)
     else if awaiting then (acc, some .endsWithOperator)
     else (acc ++ [⟨.endTok, 0, ""⟩], none)) := rfl

lemma tokenize_scan_succ_cons (f : Nat) (c : Char) (cs : List Char)
    (awaiting saw : Bool) (acc : List Token) :
    tokenize_scan (f + 1) (c :: cs) awaiting saw acc =
    (if isSpaceChar c then tokenize_scan f cs awaiting saw acc
     else
      if c = '-' ∧ awaiting then
        match handle_unary_minus cs with
        | .error e => (acc, some e)
        | .ok (emitted, rest) =>
          tokenize_scan f rest
            (decide ((emitted.getLastD ⟨.endTok, 0, ""⟩).type = .mult))
            true (acc ++ emitted)
      else if awaiting then
        match is_operand_valid c cs with
        | some (.ok (tok, rest)) =>
          tokenize_scan f rest (decide (tok.type = .lparen)) true (acc ++ [tok])
        | some (.error e) => (acc, some e)
        | none => (acc, some (validate_expected_operand c))
      else
        match handle_operator_or_close_paren c with
        | some tt =>
          tokenize_scan f cs (decide (tt ≠ .rparen)) true (acc ++ [⟨tt, 0, ""⟩])
        | none =>
          if isDigitChar c || isLowerChar c || c = '(' then
            (acc, some .missingOperatorBetweenOperands)
          else (acc, some .invalidCharacter)) := rfl

/-- `parse_negative_number` on an all-digit input: overflow above 2^63,
otherwise the negated magnitude (the INT64_MIN special case collapses into
the general negation since `int64Min = -(2^63)`). -/
lemma parse_negative_number_all_digits {s : List Char} (hne : s ≠ [])
    (hall : s.all isDigitChar = true) :
    parse_negative_number s =
      (if (digitsVal s : Int) > 2 ^ 63 then .error .integerLiteralOverflow
       else .ok (-(digitsVal s : Int), [])) := by
  have hne' : s.isEmpty = false := by
    cases s with
    | nil => exact absurd rfl hne
    | cons d t => rfl
  unfold parse_negative_number
  simp only [takeWhile_eq_self_of_all hall, dropWhile_eq_nil_of_all hall, hne',
    Bool.false_eq_true, if_false]
  by_cases h63 : (digitsVal s : Int) > 2 ^ 63
  · rw [if_pos h63, if_pos h63]
  · rw [if_neg h63, if_neg h63]
    by_cases heq : (digitsVal s : Int) = 2 ^ 63
    · rw [if_pos heq, heq]
      rfl
    · rw [if_neg heq]

/-- `handle_unary_minus` when the remainder starts with the digits of the
magnitude (and nothing else). -/
lemma handle_unary_minus_digits {s : List Char} (hne : s ≠ [])
    (hall : s.all isDigitChar = true) :
    handle_unary_minus s =
      (if (digitsVal s : Int) > 2 ^ 63 then .error .integerLiteralOverflow
       else .ok ([⟨.number, -(digitsVal s : Int), ""⟩], [])) := by
  obtain ⟨d, t, rfl⟩ : ∃ d t, s = d :: t := by
    cases s with
    | nil => exact absurd rfl hne
    | cons d t => exact ⟨d, t, rfl⟩
  have hd : isDigitChar d = true := by
    simp only [List.all_cons, Bool.and_eq_true] at hall
    exact hall.1
  have hdw : (d :: t).dropWhile isSpaceChar = d :: t :=
    dropWhile_eq_self_of_head (isSpaceChar_of_isDigitChar hd)
  unfold handle_unary_minus
  simp only [hdw, hd, if_true]
  rw [parse_negative_number_all_digits hne hall]
  by_cases h63 : (digitsVal (d :: t) : Int) > 2 ^ 63
  · rw [if_pos h63, if_pos h63]
    rfl
  · rw [if_neg h63, if_neg h63]
    rfl

/-! ### Claim theorems -/

/-- C1, counterexample: the claimed round-trip identity
`evaluate(tree) = streaming_evaluate(serialize(tree))` fails on the concrete
Variable-free trees `7 / 2` (evaluation succeeds with 3 but `write_pre`
rejects Div nodes with "malformed AST") and `INT64_MAX + 1` (evaluation fails
with overflow but the streaming evaluator, whose arithmetic is unchecked,
returns the wrapped value). -/
theorem c1_round_trip_counterexample :
    (Node.binop .div (.num 7) (.num 2)).get_value = .ok 3 ∧
    round_trip_rhs (Node.binop .div (.num 7) (.num 2)) = .error .malformedAST ∧
    (Node.binop .div (.num 7) (.num 2)).get_value ≠
      round_trip_rhs (Node.binop .div (.num 7) (.num 2)) ∧
    (Node.binop .add (.num 9223372036854775807) (.num 1)).get_value =
      .error .overflowAdd ∧
    round_trip_rhs (Node.binop .add (.num 9223372036854775807) (.num 1)) =
      .ok (-9223372036854775808) ∧
    (Node.binop .add (.num 9223372036854775807) (.num 1)).get_value ≠
      round_trip_rhs (Node.binop .add (.num 9223372036854775807) (.num 1)) := by
  refine ⟨rfl, rfl, ?_, rfl, rfl, ?_⟩
  · intro hcon
    rw [show (Node.binop .div (.num 7) (.num 2)).get_value = .ok 3 from rfl,
      show round_trip_rhs (Node.binop .div (.num 7) (.num 2)) =
        .error .malformedAST from rfl] at hcon
    cases hcon
  · intro hcon
    rw [show (Node.binop .add (.num 9223372036854775807) (.num 1)).get_value =
        .error .overflowAdd from rfl,
      show round_trip_rhs (Node.binop .add (.num 9223372036854775807) (.num 1)) =
        .ok (-9223372036854775808) from rfl] at hcon
    cases hcon

/-- C1, amended: for every AST with no Variable and no Div nodes, whose
integer literals are valid int64 values, and whose (checked) evaluation
succeeds, evaluating the tree directly and streaming-evaluating its preorder
serialization agree: `streaming_evaluate(serialize(tree))` returns exactly
`evaluate(tree)`. -/
theorem c1_round_trip_amended (t : Node) (hv : t.noVar = true)
    (hd : t.noDiv = true) (hw : t.wf_int64 = true) (v : Int)
    (he : t.get_value = .ok v) : round_trip_rhs t = .ok v := by
  obtain ⟨ts, hts, heval⟩ := write_pre_eval_pre t hv hd hw v he
  unfold round_trip_rhs
  rw [hts, except_bind_ok]
  have hrun := heval (ts.length + 1) [] (by omega)
  rw [List.append_nil] at hrun
  unfold eval_pre_top eval_pre
  rw [hrun]

/-- Witness for `c1_round_trip_amended` at the concrete tree `20 + 22`. -/
theorem c1_round_trip_amended_witness :
    (Node.binop .add (.num 20) (.num 22)).noVar = true ∧
    (Node.binop .add (.num 20) (.num 22)).noDiv = true ∧
    (Node.binop .add (.num 20) (.num 22)).wf_int64 = true ∧
    (Node.binop .add (.num 20) (.num 22)).get_value = .ok 42 ∧
    round_trip_rhs (Node.binop .add (.num 20) (.num 22)) = .ok 42 :=
  ⟨rfl, rfl, rfl, rfl,
    c1_round_trip_amended (Node.binop .add (.num 20) (.num 22)) rfl rfl rfl 42 rfl⟩

/-- C2, counterexample: the streaming evaluator does not use checked
arithmetic — `+ INT64_MAX 1` evaluates to the wrapped value instead of
failing with an overflow error — and does not treat `/` as an operator:
`/ 4 2` fails as a bad leaf token instead of evaluating two subtrees. -/
theorem c2_streaming_counterexample :
    eval_pre_top ["+", "9223372036854775807", "1"] [] =
      .ok (-9223372036854775808) ∧
    eval_pre_top ["/", "4", "2"] [] = .error (.badIntegerToken "/") ∧
    eval_pre_top ["/", "4", "2"] [] ≠ .ok 2 := by
  refine ⟨rfl, rfl, ?_⟩
  intro hcon
  rw [show eval_pre_top ["/", "4", "2"] [] = .error (.badIntegerToken "/")
    from rfl] at hcon
  cases hcon

/-- C2, amended: the streaming evaluator treats exactly the three symbols
`+`, `-`, `*` as operators, recursively evaluating two subtrees (left, then
right) from the remaining stream and combining them with *unchecked*
wrapping arithmetic; `/` is not an operator and is parsed as a leaf,
failing as a bad integer token. -/
theorem c2_streaming_op_semantics :
    (∀ (vars : Bindings) (rest rest1 rest2 : List String) (l r : Int),
      eval_pre vars rest = .ok (l, rest1) →
      eval_pre vars rest1 = .ok (r, rest2) →
      eval_pre vars ("+" :: rest) = .ok (wrap64 (l + r), rest2) ∧
      eval_pre vars ("-" :: rest) = .ok (wrap64 (l - r), rest2) ∧
      eval_pre vars ("*" :: rest) = .ok (wrap64 (l * r), rest2)) ∧
    (∀ (vars : Bindings) (rest : List String),
      eval_pre vars ("/" :: rest) = .error (.badIntegerToken "/")) := by
  constructor
  · intro vars rest rest1 rest2 l r h1 h2
    have h1' : eval_pre_fuel vars (rest.length + 1) rest = .ok (l, rest1) := h1
    have hlt : rest1.length < rest.length :=
      eval_pre_fuel_consume vars (rest.length + 1) rest l rest1 h1'
    have h2' : eval_pre_fuel vars (rest.length + 1) rest1 = .ok (r, rest2) :=
      eval_pre_fuel_mono vars (rest1.length + 1) (rest.length + 1) rest1 r rest2
        (by omega) h2
    have key : ∀ tok : String, (tok = "+" ∨ tok = "-" ∨ tok = "*") →
        eval_pre vars (tok :: rest) =
          (if tok = "+" then .ok (wrap64 (l + r), rest2)
           else if tok = "-" then .ok (wrap64 (l - r), rest2)
           else .ok (wrap64 (l * r), rest2)) := by
      intro tok hop
      rw [show eval_pre vars (tok :: rest) =
        eval_pre_fuel vars (rest.length + 1 + 1) (tok :: rest) from rfl]
      rw [eval_pre_fuel_succ_cons, if_pos hop]
      simp only [h1', except_bind_ok]
      simp only [h2', except_bind_ok]
    refine ⟨?_, ?_, ?_⟩
    · rw [key "+" (by simp), if_pos rfl]
    · rw [key "-" (by simp), if_neg (by decide), if_pos rfl]
    · rw [key "*" (by simp), if_neg (by decide), if_neg (by decide)]
  · intro vars rest
    rw [show eval_pre vars ("/" :: rest) =
      eval_pre_fuel vars (rest.length + 1 + 1) ("/" :: rest) from rfl]
    rw [eval_pre_fuel_succ_cons, if_neg (by decide), if_neg (by decide)]
    rw [show parse_int64_token "/" = .error (.badIntegerToken "/") from rfl]
    rfl

/-- Witness for `c2_streaming_op_semantics` on the stream `+ 5 7`. -/
theorem c2_streaming_op_semantics_witness :
    eval_pre [] (["5", "7"] : List String) = .ok (5, ["7"]) ∧
    eval_pre [] (["7"] : List String) = .ok (7, []) ∧
    eval_pre [] ["+", "5", "7"] = .ok (wrap64 (5 + 7), []) ∧
    eval_pre [] ["/", "5"] = .error (.badIntegerToken "/") :=
  ⟨rfl, rfl,
    (c2_streaming_op_semantics.1 [] ["5", "7"] ["7"] [] 5 7 rfl rfl).1,
    c2_streaming_op_semantics.2 [] ["5"]⟩

/-- C3: for every evaluation of an Add, Sub or Mult node whose children
evaluate successfully, the tree evaluator returns the mathematical result
exactly when it fits in int64 and otherwise fails with the corresponding
overflow error (never a wrapped value); in particular
`"9223372036854775807+1"` fails with the addition-overflow error. -/
theorem c3_checked_add_sub_mult :
    (∀ (l r : Node) (lv rv : Int), l.get_value = .ok lv → r.get_value = .ok rv →
      (Node.binop .add l r).get_value =
        (if inInt64 (lv + rv) then .ok (lv + rv) else .error .overflowAdd) ∧
      (Node.binop .sub l r).get_value =
        (if inInt64 (lv - rv) then .ok (lv - rv) else .error .overflowSub) ∧
      (Node.binop .mult l r).get_value =
        (if inInt64 (lv * rv) then .ok (lv * rv) else .error .overflowMul)) ∧
    full_eval "9223372036854775807+1" = .error .overflowAdd := by
  refine ⟨?_, rfl⟩
  intro l r lv rv hl hr
  refine ⟨?_, ?_, ?_⟩ <;>
    simp only [Node.get_value, hl, hr, except_bind_ok, checked_add, checked_sub,
      checked_mul]

/-- Witness for `c3_checked_add_sub_mult` at the children `1` and `2`. -/
theorem c3_checked_add_sub_mult_witness :
    (Node.binop .add (.num 1) (.num 2)).get_value =
      (if inInt64 ((1 : Int) + 2) then .ok ((1 : Int) + 2) else .error .overflowAdd) ∧
    (Node.binop .sub (.num 1) (.num 2)).get_value =
      (if inInt64 ((1 : Int) - 2) then .ok ((1 : Int) - 2) else .error .overflowSub) ∧
    (Node.binop .mult (.num 1) (.num 2)).get_value =
      (if inInt64 ((1 : Int) * 2) then .ok ((1 : Int) * 2) else .error .overflowMul) :=
  c3_checked_add_sub_mult.1 (.num 1) (.num 2) 1 2 rfl rfl

/-- C4: the end-to-end pipeline (tokenize, build, serialize, streaming
evaluate with bindings) evaluates `"x+1"` to 42 under the binding `x = 41`
and fails with the unbound-variable error with no bindings; in general a
variable token is evaluated by looking up its name in the supplied bindings,
failing exactly when the name is absent. -/
theorem c4_variable_bindings :
    ((do
        let p ← build_pre "x+1"
        eval_pre_top p [("x", 41)]) = .ok 42) ∧
    ((do
        let p ← build_pre "x+1"
        eval_pre_top p []) = .error (.unboundVariable "x")) ∧
    (∀ (name : String) (vars : Bindings) (rest : List String),
      is_variable_token name = true →
      eval_pre vars (name :: rest) =
        (match vars.lookup name with
         | some v => .ok (v, rest)
         | none => .error (.unboundVariable name))) := by
  refine ⟨rfl, rfl, ?_⟩
  intro name vars rest hvar
  have hnop : ¬ (name = "+" ∨ name = "-" ∨ name = "*") := by
    rintro (rfl | rfl | rfl) <;> revert hvar <;> decide
  rw [show eval_pre vars (name :: rest) =
    eval_pre_fuel vars (rest.length + 1 + 1) (name :: rest) from rfl]
  rw [eval_pre_fuel_succ_cons, if_neg hnop, if_pos hvar]

/-- Witness for `c4_variable_bindings` at the token `y` with and without a
binding. -/
theorem c4_variable_bindings_witness :
    is_variable_token "y" = true ∧
    eval_pre [("y", 7)] ["y"] =
      (match ([("y", 7)] : Bindings).lookup "y" with
       | some v => .ok (v, ([] : List String))
       | none => .error (.unboundVariable "y")) ∧
    eval_pre [] ["y"] =
      (match ([] : Bindings).lookup "y" with
       | some v => .ok (v, ([] : List String))
       | none => .error (.unboundVariable "y")) :=
  ⟨rfl, c4_variable_bindings.2.2 "y" [("y", 7)] [] rfl,
    c4_variable_bindings.2.2 "y" [] [] rfl⟩

/-- C5: a Div node whose children evaluate successfully fails with the
division-by-zero error exactly when the right operand is 0, fails with the
division-overflow error exactly in the single remaining case
INT64_MIN / -1, and otherwise returns the toward-zero truncated quotient;
`"7/2"` evaluates to 3, `"1/0"` fails with division-by-zero and
min-int64 divided by minus one fails with overflow. -/
theorem c5_checked_div :
    (∀ (l r : Node) (lv rv : Int), l.get_value = .ok lv → r.get_value = .ok rv →
      (Node.binop .div l r).get_value =
        (if rv = 0 then .error .divisionByZero
         else if lv = int64Min ∧ rv = -1 then .error .overflowDiv
         else .ok (Int.tdiv lv rv))) ∧
    full_eval "7/2" = .ok 3 ∧
    full_eval "1/0" = .error .divisionByZero ∧
    full_eval "-9223372036854775808/-1" = .error .overflowDiv := by
  refine ⟨?_, rfl, rfl, rfl⟩
  intro l r lv rv hl hr
  simp only [Node.get_value, hl, hr, except_bind_ok, checked_div]

/-- Witness for `c5_checked_div` at the children `7` and `2`. -/
theorem c5_checked_div_witness :
    (Node.binop .div (.num 7) (.num 2)).get_value =
      (if (2 : Int) = 0 then .error .divisionByZero
       else if (7 : Int) = int64Min ∧ (2 : Int) = -1 then .error .overflowDiv
       else .ok (Int.tdiv 7 2)) :=
  c5_checked_div.1 (.num 7) (.num 2) 7 2 rfl rfl

/-- C6: `*` and `/` have precedence 2, `+` and `-` have precedence 1; an
incoming operator pops and applies the pending operator whenever the pending
one is not `(` and its precedence is greater *or equal* (left-associative
tie-popping); consequently `"1+2*3"` evaluates to 7, `"(1+2)*3"` evaluates
to 9 and `"1-2+1"` evaluates to 0 (left association). -/
theorem c6_precedence :
    get_precedence .mult = 2 ∧ get_precedence .div = 2 ∧
    get_precedence .plus = 1 ∧ get_precedence .minus = 1 ∧
    (∀ (op t : TokenType) (vs : List Node) (ops : List TokenType),
      t ≠ TokenType.lparen → get_precedence t ≥ get_precedence op →
      handle_operator op vs (t :: ops) =
        (match apply_top_operator vs (t :: ops) with
         | .ok (vs', ops') => handle_operator op vs' ops'
         | .error e => .error e)) ∧
    full_eval "1+2*3" = .ok 7 ∧ full_eval "(1+2)*3" = .ok 9 ∧
    full_eval "1-2+1" = .ok 0 := by
  refine ⟨rfl, rfl, rfl, rfl, ?_, rfl, rfl, rfl⟩
  intro op t vs ops hne hge
  rw [show handle_operator op vs (t :: ops) =
    (if t ≠ TokenType.lparen ∧ get_precedence t ≥ get_precedence op then
      match vs with
      | r :: l :: vs' =>
        match token_type_to_node_type t with
        | .ok nt => handle_operator op (Node.binop nt l r :: vs') ops
        | .error e => .error e
      | _ => .error .missingOperand
    else .ok (vs, op :: t :: ops)) from rfl]
  rw [if_pos ⟨hne, hge⟩]
  unfold apply_top_operator
  match vs with
  | [] => rfl
  | [x] => rfl
  | r :: l :: vs' =>
    cases htt : token_type_to_node_type t with
    | ok nt => simp [htt, except_bind_ok]
    | error e => simp [htt, except_bind_err]

/-- Witness for `c6_precedence`: equal-precedence popping at `-` pending
against incoming `+`. -/
theorem c6_precedence_witness :
    TokenType.minus ≠ TokenType.lparen ∧
    get_precedence .minus ≥ get_precedence .plus ∧
    handle_operator .plus [Node.num 2, Node.num 1] [TokenType.minus] =
      (match apply_top_operator [Node.num 2, Node.num 1] [TokenType.minus] with
       | .ok (vs', ops') => handle_operator .plus vs' ops'
       | .error e => .error e) :=
  ⟨by decide, by decide,
    c6_precedence.2.2.2.2.1 .plus .minus [Node.num 2, Node.num 1] []
      (by decide) (by decide)⟩

/-- C7: a unary minus followed (after whitespace) by a digit parses the
digit run as an unsigned magnitude and negates it, emitting exactly one
Number token; magnitudes up to 2^63 are accepted (so
`"-9223372036854775808"` tokenizes to the single Number token INT64_MIN
followed by the End marker) and any larger magnitude fails with the
integer-literal-overflow error. -/
theorem c7_negative_literal :
    tokenize "-9223372036854775808" =
      .ok [⟨.number, int64Min, ""⟩, ⟨.endTok, 0, ""⟩] ∧
    tokenize "-9223372036854775809" = .error .integerLiteralOverflow ∧
    (∀ s : List Char, s ≠ [] → s.all isDigitChar = true →
      ((digitsVal s : Int) ≤ 2 ^ 63 →
        tokenize_chars ('-' :: s) =
          ([⟨.number, -(digitsVal s : Int), ""⟩, ⟨.endTok, 0, ""⟩], none)) ∧
      (2 ^ 63 < (digitsVal s : Int) →
        tokenize_chars ('-' :: s) = ([], some .integerLiteralOverflow))) := by
  refine ⟨rfl, rfl, ?_⟩
  intro s hne hall
  have hum := handle_unary_minus_digits hne hall
  constructor
  · intro hle
    rw [if_neg (show ¬ ((digitsVal s : Int) > 2 ^ 63) by omega)] at hum
    show tokenize_scan (s.length + 1 + 1) ('-' :: s) true false [] = _
    rw [tokenize_scan_succ_cons]
    rw [if_neg (show ¬ (isSpaceChar '-' = true) by decide)]
    rw [if_pos (show '-' = '-' ∧ (true : Bool) = true from ⟨rfl, rfl⟩)]
    simp only [hum]
    rw [tokenize_scan_succ_nil]
    simp
  · intro hgt
    rw [if_pos hgt] at hum
    show tokenize_scan (s.length + 1 + 1) ('-' :: s) true false [] = _
    rw [tokenize_scan_succ_cons]
    rw [if_neg (show ¬ (isSpaceChar '-' = true) by decide)]
    rw [if_pos (show '-' = '-' ∧ (true : Bool) = true from ⟨rfl, rfl⟩)]
    simp only [hum]

/-- Witness for `c7_negative_literal`: the one-digit magnitude 9 and the
21-digit magnitude 10^20 (which exceeds 2^63). -/
theorem c7_negative_literal_witness :
    (['9'] : List Char) ≠ [] ∧ (['9'] : List Char).all isDigitChar = true ∧
    tokenize_chars ('-' :: ['9']) =
      ([⟨.number, -(digitsVal ['9'] : Int), ""⟩, ⟨.endTok, 0, ""⟩], none) ∧
    tokenize_chars ('-' :: ['1', '0', '0', '0', '0', '0', '0', '0', '0', '0',
        '0', '0', '0', '0', '0', '0', '0', '0', '0', '0', '0']) =
      ([], some .integerLiteralOverflow) :=
  ⟨by decide, by decide,
    (c7_negative_literal.2.2 ['9'] (by decide) (by decide)).1 (by decide),
    (c7_negative_literal.2.2 ['1', '0', '0', '0', '0', '0', '0', '0', '0', '0',
        '0', '0', '0', '0', '0', '0', '0', '0', '0', '0', '0'] (by decide)
      (by decide)).2 (by decide)⟩

/-- C8: `"--5"` is accepted: the first minus is rewritten to the tokens
`Number(-1), Mult`, the second folds into the negative literal
`Number(-5)`, the builder produces the tree `(-1) * (-5)`, and evaluation
yields 5. -/
theorem c8_double_unary_minus :
    tokenize "--5" = .ok [⟨.number, -1, ""⟩, ⟨.mult, 0, ""⟩,
      ⟨.number, -5, ""⟩, ⟨.endTok, 0, ""⟩] ∧
    (do
      let toks ← tokenize "--5"
      add_tokens_to_tree toks) =
        .ok (Node.binop .mult (.num (-1)) (.num (-5))) ∧
    full_eval "--5" = .ok 5 :=
  ⟨rfl, rfl, rfl⟩

/-- Failing parses leave the `AST` object with no root: the tree is never
partially installed. -/
lemma AST_parse_fail_root (st : ASTState) (input : String) :
    (AST_parse st input).2.isSome = true → (AST_parse st input).1.root = none := by
  unfold AST_parse AST_clear AST_tokenize AST_add_tokens_to_tree
  cases htk : tokenize_chars input.data with
  | mk toks err =>
    cases err with
    | some e =>
      simp only [htk]
      intro _
      trivial
    | none =>
      simp only [htk]
      cases hb : add_tokens_to_tree toks with
      | ok t =>
        simp only [hb]
        intro hcon
        simp at hcon
      | error e =>
        simp only [hb]
        intro _
        trivial

/-- C9, counterexample: after the failing parse of `"1+$"` the AST object
retains the two tokens emitted before the invalid character was reached —
the `tokens_` vector is *not* empty after a failed tokenize pass. -/
theorem c9_partial_tokens_counterexample :
    (AST_parse ASTState.fresh "1+$").2 = some .invalidCharacter ∧
    (AST_parse ASTState.fresh "1+$").1.tokens =
      [⟨.number, 1, ""⟩, ⟨.plus, 0, ""⟩] ∧
    (AST_parse ASTState.fresh "1+$").1.tokens ≠ [] := by
  refine ⟨rfl, rfl, ?_⟩
  intro hcon
  rw [show (AST_parse ASTState.fresh "1+$").1.tokens =
    [⟨.number, 1, ""⟩, ⟨.plus, 0, ""⟩] from rfl] at hcon
  cases hcon

/-- C9, amended: every failure aborts the tokenize / build / evaluate call
immediately (each is modelled as an `Except` computation that stops at the
first error), and after any failing parse the AST object holds no root;
however the `tokens_` vector may retain the tokens emitted before the
failure. -/
theorem c9_fail_fast_amended (st : ASTState) (input : String)
    (h : (AST_parse st input).2.isSome = true) :
    (AST_parse st input).1.root = none :=
  AST_parse_fail_root st input h

/-- Witness for `c9_fail_fast_amended` on the failing input `"1+$"`. -/
theorem c9_fail_fast_amended_witness :
    (AST_parse ASTState.fresh "1+$").2.isSome = true ∧
    (AST_parse ASTState.fresh "1+$").1.root = none :=
  ⟨rfl, c9_fail_fast_amended ASTState.fresh "1+$" rfl⟩

/-- C10: `AST::evaluate` on any state with no installed root — a freshly
constructed AST, a cleared AST, or the state left by any failed parse —
fails with the "tree is empty" error; the null check makes `evaluate` total,
so no state reaches `root_->get_value()` with a null root. -/
theorem c10_evaluate_empty (st : ASTState) (input : String) :
    (st.root = none → AST_evaluate st = .error .treeEmpty) ∧
    AST_evaluate ASTState.fresh = .error .treeEmpty ∧
    AST_evaluate (AST_clear st) = .error .treeEmpty ∧
    ((AST_parse st input).2.isSome = true →
      AST_evaluate (AST_parse st input).1 = .error .treeEmpty) := by
  refine ⟨?_, rfl, rfl, ?_⟩
  · intro h
    unfold AST_evaluate
    rw [h]
  · intro h
    have hroot := AST_parse_fail_root st input h
    unfold AST_evaluate
    rw [hroot]

/-- Witness for `c10_evaluate_empty` at a fresh state and the failing input
`"1+$"`. -/
theorem c10_evaluate_empty_witness :
    ASTState.fresh.root = none ∧
    AST_evaluate ASTState.fresh = .error .treeEmpty ∧
    (AST_parse ASTState.fresh "1+$").2.isSome = true ∧
    AST_evaluate (AST_parse ASTState.fresh "1+$").1 = .error .treeEmpty :=
  ⟨rfl, (c10_evaluate_empty ASTState.fresh "1+$").1 rfl, rfl,
    (c10_evaluate_empty ASTState.fresh "1+$").2.2.2 rfl⟩

end PA3
